import Mathlib

/-!
Verification development for the RealTimeMap backend core:
the generic filtered-aggregation engine and the threaded-comment subsystem.

The Lean definitions below are a shallow embedding of the Python source:

* `core/common/schemas/pagination.py` — `PaginationParams`, `PaginationResponse`
* `modules/base.py` — the filter-condition dataclasses (`Eq`, `Ne`, `Gt`,
  `Gte`, `Lt`, `Lte`, `Between`, `In`), `BaseSqlModel._build_filter_condition`
  and `BaseSqlModel.count`
* `modules/mark_comment/model.py` — `Comment`, `CommentStat`,
  `CommentReaction`, the `after_insert` listener `create_base_stats`
* `modules/mark_comment/repository.py` — `get_replies`, `get_comments`,
  `get_comment_reaction`
* `modules/mark_comment/service.py` — `create_comment`,
  `get_paginated_comment_replies`, `create_or_update_comment_reaction`

SQL(Alchemy) queries are embedded by evaluating them against an explicit list
based store; machine integers are modelled as `Nat`/`Int` (the quantities
involved — ids, counters, page sizes — never overflow in the source's
environment, whose ints are unbounded anyway).
-/

namespace RealTimeMap

/-- Equality of fallible results is decidable when both components' are. -/
instance {ε α : Type} [DecidableEq ε] [DecidableEq α] :
    DecidableEq (Except ε α) := fun a b =>
  match a, b with
  | Except.ok x, Except.ok y =>
      if h : x = y then Decidable.isTrue (by rw [h])
      else Decidable.isFalse (by intro hc; cases hc; exact h rfl)
  | Except.error x, Except.error y =>
      if h : x = y then Decidable.isTrue (by rw [h])
      else Decidable.isFalse (by intro hc; cases hc; exact h rfl)
  | Except.ok _, Except.error _ => Decidable.isFalse (by intro hc; cases hc)
  | Except.error _, Except.ok _ => Decidable.isFalse (by intro hc; cases hc)

/-! ## Pagination (core/common/schemas/pagination.py) -/

/-- `PaginationParams` — query parameters.  Pydantic validates `page ≥ 1` and
`1 ≤ page_size ≤ 100`; the fields themselves are plain integers. -/
structure PaginationParams where
  page : Nat
  page_size : Nat
deriving Repr, DecidableEq

/-- `PaginationParams.offset = (page - 1) * page_size`. -/
def PaginationParams.offset (p : PaginationParams) : Nat :=
  (p.page - 1) * p.page_size

/-- `PaginationParams.limit = page_size`. -/
def PaginationParams.limit (p : PaginationParams) : Nat :=
  p.page_size

/-- `PaginationResponse` — generic items-plus-total envelope. -/
structure PaginationResponse (T : Type) where
  items : List T
  total : Nat
  page : Nat
  page_size : Nat
deriving Repr, DecidableEq

/-- `total_pages = ceil(total / page_size) if page_size else 0`
(`math.ceil` of exact division; operands are non-negative). -/
def PaginationResponse.total_pages {T : Type} (r : PaginationResponse T) : Nat :=
  if r.page_size = 0 then 0 else Nat.ceil ((r.total : ℚ) / (r.page_size : ℚ))

/-- `has_next = page < total_pages`. -/
def PaginationResponse.has_next {T : Type} (r : PaginationResponse T) : Bool :=
  decide (r.page < r.total_pages)

/-- `has_prev = page > 1`. -/
def PaginationResponse.has_prev {T : Type} (r : PaginationResponse T) : Bool :=
  decide (r.page > 1)

/-- `PaginationResponse.create(items, total, params)` — the single constructor. -/
def PaginationResponse.create {T : Type} (items : List T) (total : Nat)
    (params : PaginationParams) : PaginationResponse T :=
  { items := items, total := total, page := params.page,
    page_size := params.page_size }

/-! ## Scalar values and filter conditions (modules/base.py) -/

/-- SQL scalar values as they appear in this repository's columns and filter
payloads.  A timestamp (`datetime`) is split into its calendar day and its
time of day; a calendar `date` carries only the day. -/
inductive Value where
  | int (n : Int)
  | str (s : String)
  | bool (b : Bool)
  | date (day : Int)
  | datetime (day : Int) (tod : Nat)
deriving Repr, DecidableEq

/-- Python's `isinstance(value, date)` check used by
`_build_filter_condition`.  Note that in Python `datetime` is a subclass of
`date`, so the check also accepts datetimes. -/
def Value.isPyDate : Value → Bool
  | .date _ => true
  | .datetime _ _ => true
  | _ => false

/-- `cast(column, Date)` — truncate a timestamp to its calendar day.
On non-temporal values the cast is never exercised by the source's filters;
it is modelled as the identity there. -/
def Value.castDate : Value → Value
  | .datetime d _ => .date d
  | v => v

/-- Three-way comparison on integers. -/
def intCmp (a b : Int) : Ordering :=
  if a < b then .lt else if a = b then .eq else .gt

/-- Three-way comparison on naturals. -/
def natCmp (a b : Nat) : Ordering :=
  if a < b then .lt else if a = b then .eq else .gt

/-- Three-way comparison on strings (lexicographic). -/
def strCmp (a b : String) : Ordering :=
  if a < b then .lt else if a = b then .eq else .gt

/-- Three-way comparison on booleans (false < true). -/
def boolCmp (a b : Bool) : Ordering :=
  if a = b then .eq else if a = false then .lt else .gt

/-- Lexicographic comparison of a timestamp (day, time-of-day). -/
def dtCmp (d : Int) (t : Nat) (d' : Int) (t' : Nat) : Ordering :=
  match intCmp d d' with
  | .eq => natCmp t t'
  | o => o

/-- SQL comparison between two scalar values.  Comparing a `date` with a
`datetime` promotes the date to midnight of that day (PostgreSQL semantics);
values of unrelated types do not compare (`none`). -/
def Value.cmp : Value → Value → Option Ordering
  | .int a, .int b => some (intCmp a b)
  | .str a, .str b => some (strCmp a b)
  | .bool a, .bool b => some (boolCmp a b)
  | .date a, .date b => some (intCmp a b)
  | .datetime d t, .datetime d' t' => some (dtCmp d t d' t')
  | .date a, .datetime d' t' => some (dtCmp a 0 d' t')
  | .datetime d t, .date b => some (dtCmp d t b 0)
  | _, _ => none

/-- SQL `=` on scalar values (unknown/ill-typed comparisons are not true). -/
def vEq (a b : Value) : Bool := Value.cmp a b = some .eq

/-- SQL `<>`. -/
def vNe (a b : Value) : Bool :=
  match Value.cmp a b with
  | some .lt => true
  | some .gt => true
  | _ => false

/-- SQL `>`. -/
def vGt (a b : Value) : Bool := Value.cmp a b = some .gt

/-- SQL `>=`. -/
def vGe (a b : Value) : Bool := vGt a b || vEq a b

/-- SQL `<`. -/
def vLt (a b : Value) : Bool := Value.cmp a b = some .lt

/-- SQL `<=`. -/
def vLe (a b : Value) : Bool := vLt a b || vEq a b

/-- The filter-condition dataclasses of `modules/base.py`
(`Eq`, `Ne`, `Gt`, `Gte`, `Lt`, `Lte`, `Between`, `In`). -/
inductive FilterCondition where
  | Eq (value : Value)
  | Ne (value : Value)
  | Gt (value : Value)
  | Gte (value : Value)
  | Lt (value : Value)
  | Lte (value : Value)
  | Between (value : Value × Value)
  | In (value : List Value)
deriving Repr, DecidableEq

/-- A filter-map entry: either a raw scalar (implicit equality) or a
`FilterCondition` (`Union[Any, FilterCondition]` in the source). -/
inductive FilterValue where
  | raw (v : Value)
  | cond (c : FilterCondition)
deriving Repr, DecidableEq

/-- `BaseSqlModel._build_filter_condition`, composed with the evaluation of
the resulting SQL boolean condition on one row: `column` is the row's value
in the filtered column (`none` = SQL NULL, on which every comparison is
unknown, hence not satisfied). -/
def build_filter_condition (column : Option Value) (filter_value : FilterValue) : Bool :=
  match column with
  | none => false
  | some c =>
    match filter_value with
    | .cond (.Eq value) =>
        if value.isPyDate then vEq c.castDate value else vEq c value
    | .cond (.Ne value) =>
        if value.isPyDate then vNe c.castDate value else vNe c value
    | .cond (.Gt value) =>
        if value.isPyDate then vGt c.castDate value else vGt c value
    | .cond (.Gte value) =>
        if value.isPyDate then vGe c.castDate value else vGe c value
    | .cond (.Lt value) =>
        if value.isPyDate then vLt c.castDate value else vLt c value
    | .cond (.Lte value) =>
        if value.isPyDate then vLe c.castDate value else vLe c value
    | .cond (.Between value) =>
        if value.1.isPyDate then vLe value.1 c.castDate && vLe c.castDate value.2
        else vLe value.1 c && vLe c value.2
    | .cond (.In value) => value.any (fun v => vEq c v)
    | .raw v =>
        if v.isPyDate then vEq c.castDate v else vEq c v

/-! ## The aggregation engine (`BaseSqlModel.count`) -/

/-- A persistent collection as the aggregation engine sees it: the entity's
declared field names and its rows, each row assigning (possibly NULL) scalar
values to field names. -/
structure Table where
  fields : List String
  rows : List (List (String × Option Value))
deriving Repr, DecidableEq

/-- Reading one field of a row (an absent assignment is SQL NULL). -/
def Table.getField (row : List (String × Option Value)) (f : String) : Option Value :=
  (row.lookup f).getD none

namespace BaseSqlModel

/-- `BaseSqlModel.count(session, filters, column, distinct)`.

`_validate_filter_fields` raises `AttributeError` on a filter key that is not
a field of the entity (`Except.error`).  Otherwise the engine counts, over
the rows satisfying the conjunction of all compiled filter conditions, the
non-NULL values of the count column (`id` by default), de-duplicated when
`distinct` is set; `return result or 0` makes the no-rows outcome the
integer 0. -/
def count (t : Table) (filters : List (String × FilterValue))
    (column : Option String) (distinct : Bool) : Except String Nat :=
  if filters.all (fun p => t.fields.contains p.1) then
    let countColumn := column.getD "id"
    let matched := t.rows.filter
      (fun r => filters.all (fun p => build_filter_condition (Table.getField r p.1) p.2))
    let vals := (matched.map (fun r => Table.getField r countColumn)).filterMap id
    Except.ok (if distinct then vals.dedup.length else vals.length)
  else
    Except.error "has no attribute"

end BaseSqlModel

/-! ## The comment store (modules/mark_comment/model.py) -/

/-- `CommentReactionType` — `like` / `dislike`. -/
inductive CommentReactionType where
  | like
  | dislike
deriving Repr, DecidableEq

/-- The `Comment` entity.  `created_at` (from `TimeMarkMixin`) is an abstract
instant, totally ordered. -/
structure Comment where
  id : Nat
  content : String
  is_deleted : Bool
  owner_id : Nat
  mark_id : Nat
  parent_id : Option Nat
  created_at : Nat
deriving Repr, DecidableEq

/-- The `CommentStat` entity — one per comment, counters defaulting to 0,
`last_activity` defaulting to the insertion instant. -/
structure CommentStat where
  id : Nat
  comment_id : Nat
  likes_count : Int
  dislikes_count : Int
  total_replies : Int
  last_activity : Nat
deriving Repr, DecidableEq

/-- The `CommentReaction` entity — a (user, comment) pair with a reaction
type; the table carries a unique constraint on (user_id, comment_id). -/
structure CommentReaction where
  id : Nat
  user_id : Nat
  comment_id : Nat
  reaction_type : CommentReactionType
deriving Repr, DecidableEq

/-- The persistent store visible to the comment subsystem: the three comment
tables plus the id sequences backing their integer primary keys. -/
structure Store where
  comments : List Comment
  stats : List CommentStat
  reactions : List CommentReaction
  next_comment_id : Nat
  next_stat_id : Nat
  next_reaction_id : Nat
deriving Repr, DecidableEq

/-- Modelled from the spec: `BaseRepository.get_by_id` (only the abstract
repository classes are in the source tree) — the standard primary-key lookup
of the store handle. -/
def get_by_id (s : Store) (comment_id : Nat) : Option Comment :=
  s.comments.find? (fun c => c.id = comment_id)

/-- Errors a `create_comment` call can raise. `attributeError` is Python's
`AttributeError` from evaluating `parent_comment.id` on `None`. -/
inductive CreateError where
  | attributeError
  | validationError (field : String)
  | nestingLevelExceeded
deriving Repr, DecidableEq

/-- The transactional insert performed by a successful `create_comment`:
the repository inserts the `Comment` row, and the `after_insert` listener
`create_base_stats` (model.py:151) inserts, on the same connection inside the
same transaction, exactly one `CommentStat` row for the new comment with all
counters at their defaults (0) and `last_activity` defaulting to now.  The
two inserts commit or roll back together, hence a single atomic step. -/
def insert_comment (s : Store) (content : String) (parent_id : Option Nat)
    (mark_id owner_id now : Nat) : Except CreateError Comment × Store :=
  let row : Comment :=
    { id := s.next_comment_id, content := content, is_deleted := false,
      owner_id := owner_id, mark_id := mark_id, parent_id := parent_id,
      created_at := now }
  let stat : CommentStat :=
    { id := s.next_stat_id, comment_id := row.id, likes_count := 0,
      dislikes_count := 0, total_replies := 0, last_activity := now }
  (Except.ok row,
   { s with comments := s.comments ++ [row], stats := s.stats ++ [stat],
            next_comment_id := s.next_comment_id + 1,
            next_stat_id := s.next_stat_id + 1 })

/-- `MarkCommentService.create_comment` (service.py:41-74).  On an exception
the enclosing transaction is rolled back, so the returned store is the input
store unchanged.

Faithfulness notes: `if create_data.parent_id:` is Python truthiness, modelled
as `parent_id.getD 0 ≠ 0` (pydantic validates `parent_id ≥ 1` anyway); the
debug line `print(parent_comment.id)` (service.py:57) dereferences the lookup
result *before* the `if not parent_comment:` check, so a missing parent
raises `AttributeError` and the `ValidationError(field="parent_id")` branch
on service.py:58-63 is unreachable; `if parent_comment.parent_id:` is again
truthiness on the optional parent reference. -/
def create_comment (s : Store) (content : String) (parent_id : Option Nat)
    (mark_id owner_id now : Nat) : Except CreateError Comment × Store :=
  if parent_id.getD 0 ≠ 0 then
    match get_by_id s (parent_id.getD 0) with
    | none => (Except.error CreateError.attributeError, s)
    | some parent_comment =>
        if parent_comment.parent_id.getD 0 ≠ 0 then
          (Except.error CreateError.nestingLevelExceeded, s)
        else
          insert_comment s content parent_id mark_id owner_id now
  else
    insert_comment s content parent_id mark_id owner_id now

/-! ## Reactions (service.py:127-145, repository.py:157-164) -/

/-- `PgCommentReactionRepository.get_comment_reaction` — the reaction row of
one (user, comment) pair. -/
def get_comment_reaction (s : Store) (user_id comment_id : Nat) :
    Option CommentReaction :=
  s.reactions.find? (fun r => r.user_id = user_id && r.comment_id = comment_id)

/-- Outcome of `create_or_update_comment_reaction` (the repository result the
service returns: the created row, the deletion, or the updated row). -/
inductive ToggleResult where
  | created (r : CommentReaction)
  | deleted
  | updated (r : CommentReaction)
deriving Repr, DecidableEq

/-- `MarkCommentService.create_or_update_comment_reaction` (service.py:127-145):
no existing reaction → create one with the requested type; existing reaction
of the same type → delete it; existing reaction of a different type → update
it in place.  The repository CRUD primitives (insert with a fresh id, delete
by id, update by id) are modelled from the spec — only the abstract
repository/adapter classes are in the source tree. -/
def create_or_update_comment_reaction (s : Store) (comment_id : Nat)
    (reaction_type : CommentReactionType) (user_id : Nat) :
    ToggleResult × Store :=
  match get_comment_reaction s user_id comment_id with
  | none =>
      let row : CommentReaction :=
        { id := s.next_reaction_id, user_id := user_id,
          comment_id := comment_id, reaction_type := reaction_type }
      (ToggleResult.created row,
       { s with reactions := s.reactions ++ [row],
                next_reaction_id := s.next_reaction_id + 1 })
  | some comment_reaction =>
      if comment_reaction.reaction_type = reaction_type then
        (ToggleResult.deleted,
         { s with reactions :=
             s.reactions.filter (fun x => x.id ≠ comment_reaction.id) })
      else
        (ToggleResult.updated { comment_reaction with reaction_type := reaction_type },
         { s with reactions := s.reactions.map (fun x =>
             if x.id = comment_reaction.id then { x with reaction_type := reaction_type }
             else x) })

/-- The reaction state of one (user, comment) pair: the type of its reaction
row, if any. -/
def reactionState (s : Store) (user_id comment_id : Nat) :
    Option CommentReactionType :=
  (get_comment_reaction s user_id comment_id).map (fun r => r.reaction_type)

/-! ## Repository query strategies (modules/mark_comment/repository.py) -/

/-- Stable insertion step for `ORDER BY created_at DESC`: `x` goes after every
element at least as new. -/
def insertDesc (x : Comment) : List Comment → List Comment
  | [] => [x]
  | y :: ys => if x.created_at ≤ y.created_at then y :: insertDesc x ys
               else x :: y :: ys

/-- `ORDER BY created_at DESC` — newest first. -/
def sortDesc : List Comment → List Comment
  | [] => []
  | x :: xs => insertDesc x (sortDesc xs)

/-- Python's `min(comment.replies, key=lambda r: r.created_at)` on a nonempty
list (first minimum wins on ties); `none` on the empty list. -/
def minByCreatedAt (l : List Comment) : Option Comment :=
  l.foldl (fun acc x =>
    match acc with
    | none => some x
    | some m => if x.created_at < m.created_at then some x else some m) none

/-- The column assignment of one `Comment` row as the aggregation engine
reads it (`created_at` is rendered as an instant on a fixed day — no filter
of the comment listings touches it). -/
def commentRowValues (c : Comment) : List (String × Option Value) :=
  [("id", some (Value.int c.id)),
   ("content", some (Value.str c.content)),
   ("is_deleted", some (Value.bool c.is_deleted)),
   ("owner_id", some (Value.int c.owner_id)),
   ("mark_id", some (Value.int c.mark_id)),
   ("parent_id", (c.parent_id).map (fun p => Value.int p)),
   ("created_at", some (Value.datetime 0 c.created_at))]

/-- The `comments` table (declared fields of the `Comment` model and its
rows) as the target collection of `Comment.count`. -/
def commentTable (s : Store) : Table :=
  { fields := ["id", "content", "is_deleted", "owner_id", "mark_id",
               "parent_id", "created_at"],
    rows := s.comments.map commentRowValues }

/-- Items-plus-total pair returned by the repository (`PaginationResults`). -/
structure PaginationResults (T : Type) where
  items : List T
  total : Nat
deriving Repr, DecidableEq

/-- `PgMarkCommentRepository.get_replies` (repository.py:59-79): the
non-deleted replies of one parent, newest first, offset/limit applied; the
total is `adapter.count({"parent_id": comment_id, "is_deleted": False})`,
which (modelled from the spec: the `PgAdapter` is not in the source tree —
the spec says both totals come from the Aggregation Engine) is
`BaseSqlModel.count` over the comment table with those filters. -/
def get_replies (s : Store) (comment_id : Nat) (params : PaginationParams) :
    PaginationResults Comment :=
  let replies :=
    ((sortDesc (s.comments.filter (fun c =>
        c.parent_id = some comment_id && c.is_deleted = false))).drop
      params.offset).take params.limit
  let replies_count :=
    (BaseSqlModel.count (commentTable s)
      [("parent_id", FilterValue.raw (Value.int comment_id)),
       ("is_deleted", FilterValue.raw (Value.bool false))] none false).toOption.getD 0
  { items := replies, total := replies_count }

/-- A root comment together with its (trimmed) preview replies, as
`get_comments` returns it. -/
structure CommentWithReplies where
  comment : Comment
  replies : List Comment
deriving Repr, DecidableEq

/-- The `selectinload(Comment.replies.and_(Comment.is_deleted == False))`
batch load: the non-deleted children of one comment. -/
def loadedReplies (s : Store) (comment_id : Nat) : List Comment :=
  s.comments.filter (fun c => c.parent_id = some comment_id && c.is_deleted = false)

/-- `PgMarkCommentRepository.get_comments` (repository.py:81-126): the
non-deleted root comments of one mark, newest first, offset/limit applied,
each batch-loaded with its non-deleted replies which are then trimmed in
memory to the single oldest one (`if comment.replies: comment.replies =
[min(comment.replies, key=...created_at)]`).  The total is
`Comment.count(session, {"mark_id": mark_id, "is_deleted": False})`. -/
def get_comments (s : Store) (mark_id : Nat) (params : PaginationParams) :
    PaginationResults CommentWithReplies :=
  let roots :=
    ((sortDesc (s.comments.filter (fun c =>
        c.mark_id = mark_id && c.is_deleted = false && c.parent_id = none))).drop
      params.offset).take params.limit
  let comments := roots.map (fun c =>
    { comment := c,
      replies :=
        match minByCreatedAt (loadedReplies s c.id) with
        | none => []
        | some first_reply => [first_reply] })
  let total_comments :=
    (BaseSqlModel.count (commentTable s)
      [("mark_id", FilterValue.raw (Value.int mark_id)),
       ("is_deleted", FilterValue.raw (Value.bool false))] none false).toOption.getD 0
  { items := comments, total := total_comments }

/-- `MarkCommentService.get_paginated_comment_replies` (service.py:102-112):
wraps the repository result in the pagination envelope (the
`ReadCommentReply` read model is the reply row itself here — its conversion
is a field-for-field copy). -/
def get_paginated_comment_replies (s : Store) (comment_id : Nat)
    (params : PaginationParams) : PaginationResponse Comment :=
  let replies := get_replies s comment_id params
  PaginationResponse.create replies.items replies.total params

/-! ## Invariants and spec-side definitions -/

/-- Well-formedness of the reactions table: distinct primary keys, the unique
constraint `uq_user_comment_reaction` on (user_id, comment_id), and the id
sequence ahead of every existing id. -/
def reactionsWF (s : Store) : Prop :=
  s.reactions.Pairwise (fun a b => a.id ≠ b.id) ∧
  s.reactions.Pairwise (fun a b => a.user_id ≠ b.user_id ∨ a.comment_id ≠ b.comment_id) ∧
  ∀ r ∈ s.reactions, r.id < s.next_reaction_id

instance (s : Store) : Decidable (reactionsWF s) := by
  unfold reactionsWF; infer_instance

/-- Modelled from the spec: the total the spec claims for `listForMark` — "the
number of non-deleted root comments of the mark" (root: `parent_id` null).
Used only to compare the code's total against the claim. -/
def specRootCommentCount (s : Store) (mark_id : Nat) : Nat :=
  (s.comments.filter (fun c =>
    c.mark_id = mark_id && c.is_deleted = false && c.parent_id = none)).length

/-! ## Concrete fixtures used by counterexamples and witnesses -/

/-- An empty store with all id sequences at 1. -/
def emptyStore : Store := ⟨[], [], [], 1, 1, 1⟩

/-- A store holding, for mark 7, one root comment (id 1) and one non-deleted
reply to it (id 2), with their stat rows. -/
def demoStore : Store :=
  ⟨[⟨1, "root", false, 10, 7, none, 100⟩, ⟨2, "reply", false, 11, 7, some 1, 200⟩],
   [⟨1, 1, 0, 0, 0, 100⟩, ⟨2, 2, 0, 0, 0, 200⟩], [], 3, 3, 1⟩

/-- A store whose single reaction row is user 1's dislike on comment 1. -/
def reactionStore : Store :=
  ⟨[⟨1, "root", false, 10, 7, none, 100⟩], [⟨1, 1, 0, 0, 0, 100⟩],
   [⟨1, 1, 1, CommentReactionType.dislike⟩], 2, 2, 2⟩

/-- A one-row, one-field table used to witness counting over no matches. -/
def demoTable : Table :=
  { fields := ["id", "mark_id"],
    rows := [[("id", some (Value.int 1)), ("mark_id", some (Value.int 1))]] }

/-! ## Helper lemmas -/

/-- The exact-arithmetic ceiling of `t / ps` agrees with the rounded-up
integer division `(t + ps - 1) / ps`. -/
theorem nat_ceil_div_eq (t ps : Nat) (h : ps ≠ 0) :
    Nat.ceil ((t : ℚ) / (ps : ℚ)) = (t + ps - 1) / ps := by
  have hps0 : 0 < ps := Nat.pos_of_ne_zero h
  have hps : (0 : ℚ) < (ps : ℚ) := by exact_mod_cast hps0
  rcases Nat.eq_zero_or_pos t with ht | ht
  · subst ht
    have : (0 + ps - 1) / ps = 0 := Nat.div_eq_of_lt (by omega)
    rw [this]
    simp
  · generalize hgen : (t + ps - 1) / ps = n
    have h1 : n * ps ≤ t + ps - 1 := by
      rw [← hgen]; exact Nat.div_mul_le_self _ _
    have h2 : t + ps - 1 < n * ps + ps := by
      have hlt : (t + ps - 1) / ps < n + 1 := by omega
      have := (Nat.div_lt_iff_lt_mul hps0).mp hlt
      have hexp : (n + 1) * ps = n * ps + ps := by ring
      omega
    have hn1 : 1 ≤ n := by
      rcases Nat.eq_zero_or_pos n with h0 | hpos
      · subst h0; simp at h2; omega
      · exact hpos
    have hub : t ≤ n * ps := by omega
    have hlb : (n - 1) * ps < t := by
      have hexp : (n - 1) * ps + ps = n * ps := by
        have hsucc : (n - 1) + 1 = n := by omega
        calc (n - 1) * ps + ps = ((n - 1) + 1) * ps := by ring
        _ = n * ps := by rw [hsucc]
      omega
    rw [Nat.ceil_eq_iff (by omega)]
    constructor
    · rw [lt_div_iff₀ hps]
      exact_mod_cast hlb
    · rw [div_le_iff₀ hps]
      exact_mod_cast hub

/-- `total_pages` computed by rounded-up integer division. -/
theorem total_pages_eq {T : Type} (r : PaginationResponse T) :
    r.total_pages =
      if r.page_size = 0 then 0 else (r.total + r.page_size - 1) / r.page_size := by
  unfold PaginationResponse.total_pages
  by_cases h : r.page_size = 0
  · simp [h]
  · simp only [h, if_false]
    exact nat_ceil_div_eq r.total r.page_size h

/-! ## Claim theorems -/

/-- C9: `PaginationResponse.create` derives `total_pages = ceil(total /
page_size)` — the rounded-up integer division `(total + page_size - 1) /
page_size`, and 0 when `page_size = 0` (the division is guarded, never an
error) — `has_next = page < total_pages`, and `has_prev = page > 1`; at the
spec's examples, `create(items, 95, {page:2, page_size:30})` yields
`total_pages = 4, has_next = true, has_prev = true` and `create([], 0,
{page:1, page_size:30})` yields `total_pages = 0, has_next = false,
has_prev = false`. -/
theorem pagination_create_derived_fields {T : Type} (items : List T)
    (total : Nat) (params : PaginationParams) :
    ((PaginationResponse.create items total params).total_pages =
      if params.page_size = 0 then 0
      else (total + params.page_size - 1) / params.page_size) ∧
    ((PaginationResponse.create items total params).has_next = true ↔
      params.page < (PaginationResponse.create items total params).total_pages) ∧
    ((PaginationResponse.create items total params).has_prev = true ↔
      1 < params.page) ∧
    ((PaginationResponse.create ([] : List Nat) 95 ⟨2, 30⟩).total_pages = 4 ∧
     (PaginationResponse.create ([] : List Nat) 95 ⟨2, 30⟩).has_next = true ∧
     (PaginationResponse.create ([] : List Nat) 95 ⟨2, 30⟩).has_prev = true) ∧
    ((PaginationResponse.create ([] : List Nat) 0 ⟨1, 30⟩).total_pages = 0 ∧
     (PaginationResponse.create ([] : List Nat) 0 ⟨1, 30⟩).has_next = false ∧
     (PaginationResponse.create ([] : List Nat) 0 ⟨1, 30⟩).has_prev = false) := by
  have h95 : (PaginationResponse.create ([] : List Nat) 95 ⟨2, 30⟩).total_pages = 4 := by
    rw [total_pages_eq]; decide
  have h0 : (PaginationResponse.create ([] : List Nat) 0 ⟨1, 30⟩).total_pages = 0 := by
    rw [total_pages_eq]; decide
  refine ⟨total_pages_eq _, ?_, ?_, ⟨h95, ?_, ?_⟩, ⟨h0, ?_, ?_⟩⟩
  · simp [PaginationResponse.has_next, PaginationResponse.create]
  · simp [PaginationResponse.has_prev, PaginationResponse.create]
  · simp only [PaginationResponse.has_next, decide_eq_true_eq]
    rw [show (PaginationResponse.create ([] : List Nat) 95 ⟨2, 30⟩).page = 2 from rfl, h95]
    omega
  · decide
  · simp only [PaginationResponse.has_next, decide_eq_false_iff_not, not_lt]
    rw [show (PaginationResponse.create ([] : List Nat) 0 ⟨1, 30⟩).page = 1 from rfl, h0]
    omega
  · decide

/-- C5 (code bug): a `create_comment` whose `parent_id` has no backing comment
row fails with Python's `AttributeError` — the debug `print(parent_comment.id)`
on service.py:57 dereferences `None` before the `if not parent_comment:`
check — rather than the `ValidationError` naming the field `parent_id` that
the immediately following (unreachable) lines intend; nothing is persisted
(the store comes back unchanged). -/
theorem missing_parent_raises_attribute_error :
    create_comment demoStore "hi" (some 42) 7 12 300 =
      (Except.error CreateError.attributeError, demoStore) ∧
    (create_comment demoStore "hi" (some 42) 7 12 300).1 ≠
      Except.error (CreateError.validationError "parent_id") := by
  decide

/-- C7 counterexample: an `In` filter whose payload is a calendar date is not
normalized to date granularity — a timestamp one hour into day 5 does not
satisfy `In [date 5]`, although the date-cast of the field equals the payload
(and the `Eq (date 5)` filter does match the same row). -/
theorem date_in_filter_not_normalized :
    build_filter_condition (some (Value.datetime 5 3600))
        (FilterValue.cond (FilterCondition.In [Value.date 5])) = false ∧
    vEq (Value.datetime 5 3600).castDate (Value.date 5) = true ∧
    build_filter_condition (some (Value.datetime 5 3600))
        (FilterValue.cond (FilterCondition.Eq (Value.date 5))) = true := by
  decide

/-- C4 counterexample: on a mark with one non-deleted root comment and one
non-deleted reply, `get_comments` reports `total = 2` — the aggregation
filters are only `{mark_id, is_deleted: False}`, with no root (`parent_id is
null`) restriction — while the number of non-deleted root comments is 1. -/
theorem listForMark_total_counts_replies :
    (get_comments demoStore 7 ⟨1, 30⟩).total = 2 ∧
    specRootCommentCount demoStore 7 = 1 ∧
    (get_comments demoStore 7 ⟨1, 30⟩).total ≠ specRootCommentCount demoStore 7 := by
  decide

/-- C3 counterexample: toggling `like` twice on a (user, comment) pair whose
existing reaction is a `dislike` does not return the pair to its original
state — the first toggle updates the row to `like`, the second deletes it —
so repeating the same toggle an even number of times is not an involution. -/
theorem toggle_even_repeats_not_original :
    reactionState reactionStore 1 1 = some CommentReactionType.dislike ∧
    reactionState ((create_or_update_comment_reaction
        ((create_or_update_comment_reaction reactionStore 1
            CommentReactionType.like 1).2)
        1 CommentReactionType.like 1).2) 1 1 = none ∧
    reactionState ((create_or_update_comment_reaction
        ((create_or_update_comment_reaction reactionStore 1
            CommentReactionType.like 1).2)
        1 CommentReactionType.like 1).2) 1 1 ≠ reactionState reactionStore 1 1 := by
  decide

/-- C1: a `create_comment` whose `parent_id` refers to a comment whose own
`parent_id` is set (a reply) fails with `NestingLevelExceededError`, and the
store comes back unchanged — no `Comment` row and no `CommentStat` row is
persisted.  The hypotheses `1 ≤ pid` and `1 ≤ g` reflect that comment ids
come from a sequence starting at 1 (and pydantic's `ge=1` on the request's
`parent_id`), matching the Python truthiness checks. -/
theorem create_reply_to_reply_nesting_rejected (s : Store) (pid g : Nat)
    (parent : Comment) (hpid : 1 ≤ pid) (hfind : get_by_id s pid = some parent)
    (hparent : parent.parent_id = some g) (hg : 1 ≤ g)
    (content : String) (mark_id owner_id now : Nat) :
    create_comment s content (some pid) mark_id owner_id now =
      (Except.error CreateError.nestingLevelExceeded, s) := by
  have hp : pid ≠ 0 := by omega
  have hg0 : g ≠ 0 := by omega
  simp [create_comment, hfind, hparent, hp, hg0]

/-- Witness for C1 at a concrete input: in `demoStore`, comment 2 is a reply
to comment 1, and replying to comment 2 is rejected with the store unchanged. -/
theorem create_reply_to_reply_nesting_rejected_witness :
    (1 ≤ 2 ∧ get_by_id demoStore 2 = some ⟨2, "reply", false, 11, 7, some 1, 200⟩ ∧
     (⟨2, "reply", false, 11, 7, some 1, 200⟩ : Comment).parent_id = some 1 ∧ 1 ≤ 1) ∧
    create_comment demoStore "again" (some 2) 7 12 300 =
      (Except.error CreateError.nestingLevelExceeded, demoStore) :=
  ⟨⟨by decide, by decide, by decide, by decide⟩,
   create_reply_to_reply_nesting_rejected demoStore 2 1
     ⟨2, "reply", false, 11, 7, some 1, 200⟩ (by decide) (by decide) (by decide)
     (by decide) "again" 7 12 300⟩

/-- C2: when `create_comment` succeeds, the new `Comment` row and exactly one
`CommentStat` row referencing its id — with `likes_count = dislikes_count =
total_replies = 0` — are appended in the same atomic step (the `after_insert`
listener runs on the same connection inside the same transaction, so the pair
commits or fails as a whole), and on any error the store is unchanged, so a
stat row is never created independently of a comment creation.  The
hypothesis is store well-formedness: existing stat rows reference already
allocated comment ids. -/
theorem comment_stat_row_atomic (s : Store)
    (hwf : ∀ st ∈ s.stats, st.comment_id < s.next_comment_id)
    (content : String) (parent_id : Option Nat) (mark_id owner_id now : Nat) :
    (∀ row, (create_comment s content parent_id mark_id owner_id now).1 =
        Except.ok row →
      (create_comment s content parent_id mark_id owner_id now).2.comments =
        s.comments ++ [row] ∧
      (create_comment s content parent_id mark_id owner_id now).2.stats =
        s.stats ++ [⟨s.next_stat_id, row.id, 0, 0, 0, now⟩] ∧
      ((create_comment s content parent_id mark_id owner_id now).2.stats.filter
          (fun st => st.comment_id = row.id)).length = 1) ∧
    (∀ e, (create_comment s content parent_id mark_id owner_id now).1 =
        Except.error e →
      (create_comment s content parent_id mark_id owner_id now).2 = s) := by
  have hcase : create_comment s content parent_id mark_id owner_id now =
      insert_comment s content parent_id mark_id owner_id now ∨
      ∃ e, create_comment s content parent_id mark_id owner_id now =
        (Except.error e, s) := by
    unfold create_comment
    split
    · split
      · exact Or.inr ⟨_, rfl⟩
      · split
        · exact Or.inr ⟨_, rfl⟩
        · exact Or.inl rfl
    · exact Or.inl rfl
  rcases hcase with heq | ⟨e0, heq⟩
  · constructor
    · intro row hrow
      rw [heq] at hrow ⊢
      simp only [insert_comment] at hrow
      have hrow' : row = ⟨s.next_comment_id, content, false, owner_id, mark_id,
          parent_id, now⟩ := by
        cases hrow; rfl
      subst hrow'
      refine ⟨by simp [insert_comment], by simp [insert_comment], ?_⟩
      have hnil : s.stats.filter
          (fun st => decide (st.comment_id = s.next_comment_id)) = [] := by
        rw [List.filter_eq_nil_iff]
        intro st hst
        have := hwf st hst
        simp only [decide_eq_true_eq]
        omega
      simp only [insert_comment, List.filter_append]
      rw [hnil]
      simp
    · intro e he
      rw [heq] at he
      simp [insert_comment] at he
  · constructor
    · intro row hrow
      rw [heq] at hrow
      simp at hrow
    · intro e he
      rw [heq]

/-- Witness for C2 at a concrete input: creating a root comment in the empty
store leaves exactly one stat row referencing the new comment's id 1. -/
theorem comment_stat_row_atomic_witness :
    ((create_comment emptyStore "c" none 7 12 300).2.stats.filter
        (fun st => st.comment_id = 1)).length = 1 := by
  have h := (comment_stat_row_atomic emptyStore (by decide) "c" none 7 12 300).1
    ⟨1, "c", false, 12, 7, none, 300⟩ (by decide)
  exact h.2.2

/-! ### Reaction toggle lemmas -/

/-- Appending a reaction row for a pair that had none makes it the pair's
reaction. -/
theorem find?_pair_append_hit (l : List CommentReaction) (u c : Nat)
    (row : CommentReaction)
    (hnone : l.find? (fun r => r.user_id = u && r.comment_id = c) = none)
    (hu : row.user_id = u) (hc : row.comment_id = c) :
    (l ++ [row]).find? (fun r => r.user_id = u && r.comment_id = c) = some row := by
  rw [List.find?_append, hnone]
  simp [List.find?, hu, hc]

/-- Deleting the pair's reaction row by id leaves the pair with no reaction,
given distinct ids and the unique constraint on (user_id, comment_id). -/
theorem find?_pair_filter_ne (l : List CommentReaction) (u c : Nat)
    (r : CommentReaction)
    (hpairs : l.Pairwise (fun a b =>
      a.user_id ≠ b.user_id ∨ a.comment_id ≠ b.comment_id))
    (hfind : l.find? (fun x => x.user_id = u && x.comment_id = c) = some r) :
    (l.filter (fun x => x.id ≠ r.id)).find?
      (fun x => x.user_id = u && x.comment_id = c) = none := by
  rw [List.find?_eq_none]
  intro x hx hpx
  have hxl : x ∈ l := List.mem_of_mem_filter hx
  have hxid : x.id ≠ r.id := by
    have := List.of_mem_filter hx
    simpa using this
  have hrl : r ∈ l := List.mem_of_find?_eq_some hfind
  have hpr := List.find?_some hfind
  simp only [Bool.and_eq_true, decide_eq_true_eq] at hpx hpr
  have hxr : x ≠ r := fun he => hxid (by rw [he])
  have hsym : Symmetric (fun a b : CommentReaction =>
      a.user_id ≠ b.user_id ∨ a.comment_id ≠ b.comment_id) :=
    fun a b h => h.imp Ne.symm Ne.symm
  rcases (hpairs.forall hsym) hxl hrl hxr with h | h
  · exact h (hpx.1.trans hpr.1.symm)
  · exact h (hpx.2.trans hpr.2.symm)

/-- Updating the pair's reaction row in place (by id) keeps it the pair's
reaction, now carrying the new type. -/
theorem find?_pair_map_update (l : List CommentReaction) (u c : Nat)
    (r : CommentReaction) (t : CommentReactionType)
    (hfind : l.find? (fun x => x.user_id = u && x.comment_id = c) = some r) :
    (l.map (fun x => if x.id = r.id then { x with reaction_type := t } else x)).find?
      (fun x => x.user_id = u && x.comment_id = c) =
      some { r with reaction_type := t } := by
  rw [List.find?_map]
  have hfun : ((fun x : CommentReaction => x.user_id = u && x.comment_id = c) ∘
      (fun x => if x.id = r.id then { x with reaction_type := t } else x)) =
      (fun x : CommentReaction => x.user_id = u && x.comment_id = c) := by
    funext x
    by_cases h : x.id = r.id <;> simp [h]
  rw [hfun, hfind]
  simp

/-- The no-existing-reaction branch of the toggle, as an equation. -/
theorem toggle_eq_of_none (s : Store) (u c : Nat) (t : CommentReactionType)
    (hfind : get_comment_reaction s u c = none) :
    create_or_update_comment_reaction s c t u =
      (ToggleResult.created ⟨s.next_reaction_id, u, c, t⟩,
       { s with reactions := s.reactions ++ [⟨s.next_reaction_id, u, c, t⟩],
                next_reaction_id := s.next_reaction_id + 1 }) := by
  unfold create_or_update_comment_reaction
  rw [hfind]

/-- The same-type branch of the toggle (delete), as an equation. -/
theorem toggle_eq_of_same (s : Store) (u c : Nat) (r : CommentReaction)
    (t : CommentReactionType)
    (hfind : get_comment_reaction s u c = some r) (hrt : r.reaction_type = t) :
    create_or_update_comment_reaction s c t u =
      (ToggleResult.deleted,
       { s with reactions := s.reactions.filter (fun x => x.id ≠ r.id) }) := by
  unfold create_or_update_comment_reaction
  rw [hfind]
  simp [hrt]

/-- The different-type branch of the toggle (update in place), as an
equation. -/
theorem toggle_eq_of_diff (s : Store) (u c : Nat) (r : CommentReaction)
    (t : CommentReactionType)
    (hfind : get_comment_reaction s u c = some r) (hne : r.reaction_type ≠ t) :
    create_or_update_comment_reaction s c t u =
      (ToggleResult.updated { r with reaction_type := t },
       { s with reactions := s.reactions.map (fun x =>
           if x.id = r.id then { x with reaction_type := t } else x) }) := by
  unfold create_or_update_comment_reaction
  rw [hfind]
  simp [hne]

/-- Deleting (by id) a freshly appended row whose id no existing row carries
restores the original list. -/
theorem filter_ne_append_fresh (l : List CommentReaction) (row : CommentReaction)
    (hfresh : ∀ x ∈ l, x.id ≠ row.id) :
    (l ++ [row]).filter (fun x => x.id ≠ row.id) = l := by
  rw [List.filter_append]
  have h1 : l.filter (fun x => x.id ≠ row.id) = l :=
    List.filter_eq_self.mpr (fun a ha => by simpa using hfresh a ha)
  rw [h1]
  simp

/-- The in-place type update keeps the unique constraint on
(user_id, comment_id) intact. -/
theorem pairwise_pairs_map_update (l : List CommentReaction) (rid : Nat)
    (t : CommentReactionType)
    (hpairs : l.Pairwise (fun a b =>
      a.user_id ≠ b.user_id ∨ a.comment_id ≠ b.comment_id)) :
    (l.map (fun x => if x.id = rid then { x with reaction_type := t } else x)).Pairwise
      (fun a b => a.user_id ≠ b.user_id ∨ a.comment_id ≠ b.comment_id) := by
  rw [List.pairwise_map]
  refine hpairs.imp ?_
  intro a b h
  have ha : ∀ x : CommentReaction,
      (if x.id = rid then { x with reaction_type := t } else x).user_id = x.user_id := by
    intro x; by_cases hx : x.id = rid <;> simp [hx]
  have hb : ∀ x : CommentReaction,
      (if x.id = rid then { x with reaction_type := t } else x).comment_id = x.comment_id := by
    intro x; by_cases hx : x.id = rid <;> simp [hx]
  simpa [ha, hb] using h

/-- One toggle, seen through the pair's reaction state: created when absent,
deleted when present with the requested type, re-typed otherwise. -/
theorem toggle_state_eq (s : Store) (hwf : reactionsWF s) (u c : Nat)
    (t : CommentReactionType) :
    reactionState (create_or_update_comment_reaction s c t u).2 u c =
      match reactionState s u c with
      | none => some t
      | some t' => if t' = t then none else some t := by
  obtain ⟨hids, hpairs, hbound⟩ := hwf
  cases hfind : get_comment_reaction s u c with
  | none =>
    rw [toggle_eq_of_none s u c t hfind]
    have hstate : reactionState s u c = none := by simp [reactionState, hfind]
    rw [hstate]
    dsimp only [reactionState, get_comment_reaction]
    rw [find?_pair_append_hit s.reactions u c ⟨s.next_reaction_id, u, c, t⟩ hfind
      rfl rfl]
    rfl
  | some r =>
    have hstate : reactionState s u c = some r.reaction_type := by
      simp [reactionState, hfind]
    rw [hstate]
    by_cases hrt : r.reaction_type = t
    · rw [toggle_eq_of_same s u c r t hfind hrt]
      dsimp only [reactionState, get_comment_reaction]
      rw [find?_pair_filter_ne s.reactions u c r hpairs hfind]
      simp [hrt]
    · rw [toggle_eq_of_diff s u c r t hfind hrt]
      dsimp only [reactionState, get_comment_reaction]
      rw [find?_pair_map_update s.reactions u c r t hfind]
      simp [hrt]

/-- One toggle preserves the reactions-table invariants. -/
theorem toggle_preserves_wf (s : Store) (hwf : reactionsWF s) (u c : Nat)
    (t : CommentReactionType) :
    reactionsWF (create_or_update_comment_reaction s c t u).2 := by
  obtain ⟨hids, hpairs, hbound⟩ := hwf
  cases hfind : get_comment_reaction s u c with
  | none =>
    rw [toggle_eq_of_none s u c t hfind]
    have hnp : ∀ x ∈ s.reactions, ¬(x.user_id = u ∧ x.comment_id = c) := by
      intro x hx hcon
      have hno := List.find?_eq_none.mp hfind x hx
      simp [hcon.1, hcon.2] at hno
    unfold reactionsWF
    dsimp only
    refine ⟨?_, ?_, ?_⟩
    · rw [List.pairwise_append]
      refine ⟨hids, by simp, ?_⟩
      intro a ha b hb
      simp only [List.mem_singleton] at hb
      subst hb
      have := hbound a ha
      show a.id ≠ s.next_reaction_id
      omega
    · rw [List.pairwise_append]
      refine ⟨hpairs, by simp, ?_⟩
      intro a ha b hb
      simp only [List.mem_singleton] at hb
      subst hb
      have h := hnp a ha
      by_cases hau : a.user_id = u
      · exact Or.inr (fun hc2 => h ⟨hau, hc2⟩)
      · exact Or.inl hau
    · intro x hx
      rcases List.mem_append.mp hx with h | h
      · have := hbound x h
        omega
      · simp only [List.mem_singleton] at h
        subst h
        show s.next_reaction_id < s.next_reaction_id + 1
        omega
  | some r =>
    by_cases hrt : r.reaction_type = t
    · rw [toggle_eq_of_same s u c r t hfind hrt]
      unfold reactionsWF
      dsimp only
      refine ⟨List.Pairwise.sublist (List.filter_sublist _) hids,
        List.Pairwise.sublist (List.filter_sublist _) hpairs, ?_⟩
      intro x hx
      exact hbound x (List.mem_of_mem_filter hx)
    · rw [toggle_eq_of_diff s u c r t hfind hrt]
      unfold reactionsWF
      dsimp only
      have hid : ∀ x : CommentReaction,
          (if x.id = r.id then { x with reaction_type := t } else x).id = x.id := by
        intro x; by_cases hx : x.id = r.id <;> simp [hx]
      refine ⟨?_, pairwise_pairs_map_update _ _ _ hpairs, ?_⟩
      · rw [List.pairwise_map]
        refine hids.imp ?_
        intro a b h
        simpa [hid] using h
      · intro x hx
        rcases List.mem_map.mp hx with ⟨a, ha, rfl⟩
        rw [hid a]
        exact hbound a ha

/-- C3 (amended): `create_or_update_comment_reaction` is the three-way branch
the claim describes — no existing reaction: create one with the requested
type; existing reaction of the same type: delete it; existing reaction of a
different type: update it in place — but the toggle is *not* an involution in
general: repeating the same toggle an even number of times returns the
(user, comment) pair to its original state when that state was "no reaction"
or a reaction of the requested type, while if the pair's original reaction
had a *different* type, the first toggle updates it and the second deletes
it, leaving no reaction instead of the original one. -/
theorem toggle_three_way_branch_spec (s : Store) (hwf : reactionsWF s)
    (u c : Nat) (t : CommentReactionType) :
    ((reactionState s u c = none →
       (create_or_update_comment_reaction s c t u).1 =
         ToggleResult.created ⟨s.next_reaction_id, u, c, t⟩ ∧
       reactionState (create_or_update_comment_reaction s c t u).2 u c = some t) ∧
     (∀ r, get_comment_reaction s u c = some r → r.reaction_type = t →
       (create_or_update_comment_reaction s c t u).1 = ToggleResult.deleted ∧
       reactionState (create_or_update_comment_reaction s c t u).2 u c = none) ∧
     (∀ r, get_comment_reaction s u c = some r → r.reaction_type ≠ t →
       (create_or_update_comment_reaction s c t u).1 =
         ToggleResult.updated { r with reaction_type := t } ∧
       reactionState (create_or_update_comment_reaction s c t u).2 u c = some t)) ∧
    ((reactionState s u c = none ∨ reactionState s u c = some t) →
       reactionState (create_or_update_comment_reaction
         (create_or_update_comment_reaction s c t u).2 c t u).2 u c =
       reactionState s u c) ∧
    (∀ r, get_comment_reaction s u c = some r → r.reaction_type ≠ t →
       reactionState (create_or_update_comment_reaction
         (create_or_update_comment_reaction s c t u).2 c t u).2 u c = none) := by
  obtain ⟨hids, hpairs, hbound⟩ := hwf
  refine ⟨⟨?_, ?_, ?_⟩, ?_, ?_⟩
  · -- create branch
    intro hn
    have hg : get_comment_reaction s u c = none := by
      simpa [reactionState] using hn
    rw [toggle_eq_of_none s u c t hg]
    refine ⟨rfl, ?_⟩
    unfold reactionState get_comment_reaction
    rw [find?_pair_append_hit s.reactions u c ⟨s.next_reaction_id, u, c, t⟩ hg rfl rfl]
    rfl
  · -- delete branch
    intro r hfind hrt
    rw [toggle_eq_of_same s u c r t hfind hrt]
    refine ⟨rfl, ?_⟩
    unfold reactionState get_comment_reaction
    rw [find?_pair_filter_ne s.reactions u c r hpairs hfind]
    rfl
  · -- update branch
    intro r hfind hne
    rw [toggle_eq_of_diff s u c r t hfind hne]
    refine ⟨rfl, ?_⟩
    unfold reactionState get_comment_reaction
    rw [find?_pair_map_update s.reactions u c r t hfind]
    rfl
  · -- double toggle from none or same type
    intro h
    have hA1 := toggle_state_eq s ⟨hids, hpairs, hbound⟩ u c t
    have hwf1 := toggle_preserves_wf s ⟨hids, hpairs, hbound⟩ u c t
    have hA2 := toggle_state_eq _ hwf1 u c t
    rcases h with hn | hs
    · rw [hn] at hA1
      simp only [] at hA1
      rw [hA1] at hA2
      simp at hA2
      rw [hA2, hn]
    · rw [hs] at hA1
      simp at hA1
      rw [hA1] at hA2
      simp at hA2
      rw [hA2, hs]
  · -- double toggle from a different type
    intro r hfind hne
    have hA1 := toggle_state_eq s ⟨hids, hpairs, hbound⟩ u c t
    have hwf1 := toggle_preserves_wf s ⟨hids, hpairs, hbound⟩ u c t
    have hA2 := toggle_state_eq _ hwf1 u c t
    have hstate : reactionState s u c = some r.reaction_type := by
      simp [reactionState, hfind]
    rw [hstate] at hA1
    simp only [hne, if_neg] at hA1
    rw [hA1] at hA2
    simp at hA2
    exact hA2

/-- Witness for C3's amended theorem at a concrete input: in `reactionStore`
(user 1 has a dislike on comment 1), toggling `like` updates the row in
place, and toggling `like` twice leaves the pair with no reaction. -/
theorem toggle_three_way_branch_spec_witness :
    (create_or_update_comment_reaction reactionStore 1 CommentReactionType.like 1).1 =
      ToggleResult.updated ⟨1, 1, 1, CommentReactionType.like⟩ ∧
    reactionState (create_or_update_comment_reaction
      (create_or_update_comment_reaction reactionStore 1 CommentReactionType.like 1).2
      1 CommentReactionType.like 1).2 1 1 = none := by
  have h := toggle_three_way_branch_spec reactionStore (by decide) 1 1
    CommentReactionType.like
  exact ⟨(h.1.2.2 ⟨1, 1, 1, CommentReactionType.dislike⟩ (by decide) (by decide)).1,
         h.2.2 ⟨1, 1, 1, CommentReactionType.dislike⟩ (by decide) (by decide)⟩

/-- C7 (amended): every compiled variant *except `In`* first normalizes the
field to date granularity when its payload is a calendar date — the compiled
condition depends on the field value only through its date cast (stated for
`Equals`, `NotEquals`, `GreaterThan`, `GreaterOrEqual`, `LessThan`,
`LessOrEqual`, `Between` and the bare-scalar sugar), and a date-valued
`Equals(D)` matches every timestamp on calendar day D regardless of
time-of-day — while `In` compares raw set membership with no normalization:
a date-valued `In [D]` filter matches a timestamp on day D only at exact
midnight. -/
theorem date_filters_normalize_except_in (v w : Value)
    (h : v.castDate = w.castDate) (d lo hi : Int) (tod : Nat) :
    (build_filter_condition (some v)
        (FilterValue.cond (FilterCondition.Eq (Value.date d))) =
      build_filter_condition (some w)
        (FilterValue.cond (FilterCondition.Eq (Value.date d)))) ∧
    (build_filter_condition (some v)
        (FilterValue.cond (FilterCondition.Ne (Value.date d))) =
      build_filter_condition (some w)
        (FilterValue.cond (FilterCondition.Ne (Value.date d)))) ∧
    (build_filter_condition (some v)
        (FilterValue.cond (FilterCondition.Gt (Value.date d))) =
      build_filter_condition (some w)
        (FilterValue.cond (FilterCondition.Gt (Value.date d)))) ∧
    (build_filter_condition (some v)
        (FilterValue.cond (FilterCondition.Gte (Value.date d))) =
      build_filter_condition (some w)
        (FilterValue.cond (FilterCondition.Gte (Value.date d)))) ∧
    (build_filter_condition (some v)
        (FilterValue.cond (FilterCondition.Lt (Value.date d))) =
      build_filter_condition (some w)
        (FilterValue.cond (FilterCondition.Lt (Value.date d)))) ∧
    (build_filter_condition (some v)
        (FilterValue.cond (FilterCondition.Lte (Value.date d))) =
      build_filter_condition (some w)
        (FilterValue.cond (FilterCondition.Lte (Value.date d)))) ∧
    (build_filter_condition (some v)
        (FilterValue.cond (FilterCondition.Between (Value.date lo, Value.date hi))) =
      build_filter_condition (some w)
        (FilterValue.cond (FilterCondition.Between (Value.date lo, Value.date hi)))) ∧
    (build_filter_condition (some v) (FilterValue.raw (Value.date d)) =
      build_filter_condition (some w) (FilterValue.raw (Value.date d))) ∧
    (build_filter_condition (some (Value.datetime d tod))
        (FilterValue.cond (FilterCondition.Eq (Value.date d))) = true) ∧
    (build_filter_condition (some (Value.datetime d tod))
        (FilterValue.cond (FilterCondition.In [Value.date d])) = decide (tod = 0)) := by
  refine ⟨?_, ?_, ?_, ?_, ?_, ?_, ?_, ?_, ?_, ?_⟩
  · simp [build_filter_condition, Value.isPyDate, h]
  · simp [build_filter_condition, Value.isPyDate, h]
  · simp [build_filter_condition, Value.isPyDate, h]
  · simp [build_filter_condition, Value.isPyDate, h]
  · simp [build_filter_condition, Value.isPyDate, h]
  · simp [build_filter_condition, Value.isPyDate, h]
  · simp [build_filter_condition, Value.isPyDate, h]
  · simp [build_filter_condition, Value.isPyDate, h]
  · simp [build_filter_condition, Value.isPyDate, Value.castDate, vEq, Value.cmp,
      intCmp]
  · by_cases htod : tod = 0 <;>
      simp [build_filter_condition, vEq, Value.cmp, dtCmp, intCmp, natCmp, htod]

/-- Witness for C7's amended theorem at a concrete input: a timestamp one
hour into day 5 and its calendar day share the date cast, the `Equals(date
5)` filter matches the timestamp, and `In [date 5]` does not. -/
theorem date_filters_normalize_except_in_witness :
    (Value.datetime 5 3600).castDate = (Value.date 5).castDate ∧
    build_filter_condition (some (Value.datetime 5 3600))
      (FilterValue.cond (FilterCondition.Eq (Value.date 5))) = true ∧
    build_filter_condition (some (Value.datetime 5 3600))
      (FilterValue.cond (FilterCondition.In [Value.date 5])) = decide (3600 = 0) :=
  ⟨by decide,
   (date_filters_normalize_except_in (Value.datetime 5 3600) (Value.date 5)
     (by decide) 5 0 0 3600).2.2.2.2.2.2.2.2.1,
   (date_filters_normalize_except_in (Value.datetime 5 3600) (Value.date 5)
     (by decide) 5 0 0 3600).2.2.2.2.2.2.2.2.2⟩

/-- C8: for every collection and every filter map over known fields that
matches zero rows, `count` returns the integer 0 — `Except.ok 0`, never an
error and never an absent value, for any count column and either distinct
mode: absence of matching data is not an error condition for counting. -/
theorem count_zero_matching_rows_ok_zero (t : Table)
    (filters : List (String × FilterValue)) (column : Option String)
    (distinct : Bool)
    (hknown : ∀ p ∈ filters, t.fields.contains p.1 = true)
    (hzero : t.rows.filter (fun r => filters.all
      (fun p => build_filter_condition (Table.getField r p.1) p.2)) = []) :
    BaseSqlModel.count t filters column distinct = Except.ok 0 := by
  simp only [BaseSqlModel.count]
  rw [if_pos (List.all_eq_true.mpr hknown)]
  rw [hzero]
  cases distinct <;> simp

/-- Witness for C8 at a concrete input: counting `demoTable` rows with
`mark_id = 2` (no row matches) yields 0, in distinct mode. -/
theorem count_zero_matching_rows_ok_zero_witness :
    BaseSqlModel.count demoTable [("mark_id", FilterValue.raw (Value.int 2))]
      none true = Except.ok 0 :=
  count_zero_matching_rows_ok_zero demoTable
    [("mark_id", FilterValue.raw (Value.int 2))] none true (by decide) (by decide)

/-! ### Evaluating the aggregation engine on the comments table -/

/-- SQL equality of two integer values is integer equality. -/
theorem vEq_int (a b : Int) : vEq (Value.int a) (Value.int b) = decide (a = b) := by
  simp only [vEq, Value.cmp]
  unfold intCmp
  split_ifs with h1 h2
  · have hne : ¬(a = b) := by omega
    simp [hne]
  · simp [h2]
  · simp [h2]

/-- SQL equality of two boolean values is boolean equality. -/
theorem vEq_bool (a b : Bool) : vEq (Value.bool a) (Value.bool b) = decide (a = b) := by
  simp only [vEq, Value.cmp]
  unfold boolCmp
  split_ifs with h1 h2 <;> simp [h1]

/-- A raw (implicit-equality) integer filter on an optional integer column
tests equality against the present value and rejects NULL. -/
theorem bfc_raw_int_opt (p : Option Nat) (cid : Nat) :
    build_filter_condition (p.map (fun x => Value.int x))
      (FilterValue.raw (Value.int cid)) = decide (p = some cid) := by
  cases p with
  | none => simp [build_filter_condition]
  | some x =>
    simp [build_filter_condition, Value.isPyDate, vEq_int]

/-- `BaseSqlModel.count` over the comments table, with `id` as count column
and no distinct, is the number of comment rows satisfying the row-level
reading of the filters. -/
theorem count_comment_filters (s : Store) (fs : List (String × FilterValue))
    (q : Comment → Bool)
    (hfields : fs.all (fun p => (commentTable s).fields.contains p.1) = true)
    (heval : ∀ c : Comment, fs.all
      (fun p => build_filter_condition (Table.getField (commentRowValues c) p.1) p.2)
      = q c) :
    BaseSqlModel.count (commentTable s) fs none false =
      Except.ok ((s.comments.filter q).length) := by
  simp only [BaseSqlModel.count]
  rw [if_pos hfields]
  have hrows : (commentTable s).rows = s.comments.map commentRowValues := rfl
  rw [hrows, List.filter_map]
  have hcong : List.filter ((fun r => fs.all fun p =>
      build_filter_condition (Table.getField r p.1) p.2) ∘ commentRowValues)
      s.comments = List.filter q s.comments :=
    List.filter_congr (fun c _ => heval c)
  rw [hcong]
  have hvals : ∀ l : List Comment,
      (((l.map commentRowValues).map
          (fun r => Table.getField r (Option.getD none "id"))).filterMap id).length =
        l.length := by
    intro l
    induction l with
    | nil => rfl
    | cons x xs ih =>
      have hx : id (Table.getField (commentRowValues x) (Option.getD none "id")) =
          some (Value.int x.id) := rfl
      simp only [List.map_cons, List.filterMap_cons, hx, List.length_cons, ih]
  simp [hvals]
  intro a _ _
  rfl

/-- The aggregation-engine total used by `get_comments`:
`{"mark_id": mark_id, "is_deleted": False}` counts every non-deleted comment
of the mark, replies included. -/
theorem count_mark_comments (s : Store) (mid : Nat) :
    BaseSqlModel.count (commentTable s)
      [("mark_id", FilterValue.raw (Value.int mid)),
       ("is_deleted", FilterValue.raw (Value.bool false))] none false =
    Except.ok ((s.comments.filter
      (fun c => c.mark_id = mid && c.is_deleted = false)).length) := by
  apply count_comment_filters
  · rfl
  · intro c
    have h1 : Table.getField (commentRowValues c) "mark_id" =
        some (Value.int c.mark_id) := rfl
    have h2 : Table.getField (commentRowValues c) "is_deleted" =
        some (Value.bool c.is_deleted) := rfl
    simp only [List.all_cons, List.all_nil, h1, h2]
    simp [build_filter_condition, Value.isPyDate, vEq_int, vEq_bool,
      Bool.and_true]

/-- The aggregation-engine total used by `get_replies`:
`{"parent_id": comment_id, "is_deleted": False}` counts the non-deleted
replies of the parent (roots have NULL `parent_id` and never match). -/
theorem count_parent_comments (s : Store) (cid : Nat) :
    BaseSqlModel.count (commentTable s)
      [("parent_id", FilterValue.raw (Value.int cid)),
       ("is_deleted", FilterValue.raw (Value.bool false))] none false =
    Except.ok ((s.comments.filter
      (fun c => c.parent_id = some cid && c.is_deleted = false)).length) := by
  apply count_comment_filters
  · rfl
  · intro c
    have h1 : Table.getField (commentRowValues c) "parent_id" =
        (c.parent_id).map (fun p => Value.int p) := rfl
    have h2 : Table.getField (commentRowValues c) "is_deleted" =
        some (Value.bool c.is_deleted) := rfl
    simp only [List.all_cons, List.all_nil, h1, h2, bfc_raw_int_opt]
    simp [build_filter_condition, Value.isPyDate, vEq_bool, Bool.and_true]

/-- C4 (amended): the `total` reported by `listForMark` is computed by the
Aggregation Engine — not by counting the in-memory items, and the preview
trimming never affects it — but over the filters `{mark_id, is_deleted:
False}` with no root restriction, so across all pages it equals the number
of non-deleted comments of the mark *including replies*, not the number of
non-deleted root comments. -/
theorem listForMark_total_via_aggregation (s : Store) (mark_id : Nat)
    (params : PaginationParams) :
    (get_comments s mark_id params).total =
      (s.comments.filter
        (fun c => c.mark_id = mark_id && c.is_deleted = false)).length := by
  simp [get_comments, count_mark_comments, Except.toOption]

/-- C10: `listReplies` for a `comment_id` with no backing comment row does
not raise NotFound: it returns a normal pagination envelope with an empty
items list and `total = 0`.  Hypotheses: no comment has that id, and parent
references in the store are not dangling (each `parent_id` points at an
existing comment). -/
theorem replies_of_missing_comment_empty_page (s : Store) (comment_id : Nat)
    (params : PaginationParams)
    (hmissing : ∀ c ∈ s.comments, c.id ≠ comment_id)
    (hrefs : ∀ c ∈ s.comments,
      c.parent_id = none ∨ ∃ c2 ∈ s.comments, some c2.id = c.parent_id) :
    (get_paginated_comment_replies s comment_id params).items = [] ∧
    (get_paginated_comment_replies s comment_id params).total = 0 := by
  have hnone : s.comments.filter (fun c => c.parent_id = some comment_id &&
      c.is_deleted = false) = [] := by
    rw [List.filter_eq_nil_iff]
    intro c hc hpc
    simp only [Bool.and_eq_true, decide_eq_true_eq] at hpc
    rcases hrefs c hc with h | ⟨c2, hc2, hid⟩
    · rw [h] at hpc
      cases hpc.1
    · rw [hpc.1] at hid
      exact hmissing c2 hc2 (Option.some_inj.mp hid)
  constructor
  · show (((sortDesc (s.comments.filter (fun c =>
        c.parent_id = some comment_id && c.is_deleted = false))).drop
        params.offset).take params.limit) = []
    rw [hnone]
    simp [sortDesc]
  · show (BaseSqlModel.count (commentTable s)
      [("parent_id", FilterValue.raw (Value.int comment_id)),
       ("is_deleted", FilterValue.raw (Value.bool false))]
      none false).toOption.getD 0 = 0
    rw [count_parent_comments, hnone]
    rfl

/-- Witness for C10 at a concrete input: `demoStore` has no comment 99, and
listing the replies of 99 yields an empty page with total 0. -/
theorem replies_of_missing_comment_empty_page_witness :
    ((∀ c ∈ demoStore.comments, c.id ≠ 99) ∧
     (∀ c ∈ demoStore.comments,
       c.parent_id = none ∨ ∃ c2 ∈ demoStore.comments, some c2.id = c.parent_id)) ∧
    (get_paginated_comment_replies demoStore 99 ⟨1, 30⟩).items = [] ∧
    (get_paginated_comment_replies demoStore 99 ⟨1, 30⟩).total = 0 :=
  ⟨⟨by decide, by decide⟩,
   replies_of_missing_comment_empty_page demoStore 99 ⟨1, 30⟩ (by decide) (by decide)⟩

/-! ### Ordering and minimum lemmas for the listing strategies -/

/-- Membership in a descending insertion. -/
theorem mem_insertDesc (x y : Comment) (l : List Comment) :
    y ∈ insertDesc x l ↔ y = x ∨ y ∈ l := by
  induction l with
  | nil => simp [insertDesc]
  | cons z zs ih =>
    unfold insertDesc
    by_cases h : x.created_at ≤ z.created_at
    · rw [if_pos h, List.mem_cons, ih, List.mem_cons]
      tauto
    · rw [if_neg h, List.mem_cons, List.mem_cons]

/-- `sortDesc` neither adds nor removes elements. -/
theorem mem_sortDesc (y : Comment) (l : List Comment) :
    y ∈ sortDesc l ↔ y ∈ l := by
  induction l with
  | nil => simp [sortDesc]
  | cons x xs ih =>
    unfold sortDesc
    rw [mem_insertDesc]
    simp [ih]

/-- Descending insertion preserves the newest-first ordering. -/
theorem pairwise_insertDesc (x : Comment) (l : List Comment)
    (hl : l.Pairwise (fun a b => b.created_at ≤ a.created_at)) :
    (insertDesc x l).Pairwise (fun a b => b.created_at ≤ a.created_at) := by
  induction l with
  | nil => simp [insertDesc]
  | cons z zs ih =>
    have hz := (List.pairwise_cons.mp hl).1
    have hzs := (List.pairwise_cons.mp hl).2
    unfold insertDesc
    by_cases h : x.created_at ≤ z.created_at
    · rw [if_pos h]
      rw [List.pairwise_cons]
      refine ⟨?_, ih hzs⟩
      intro b hb
      rcases (mem_insertDesc x b zs).mp hb with rfl | hb
      · exact h
      · exact hz b hb
    · rw [if_neg h]
      rw [List.pairwise_cons]
      refine ⟨?_, hl⟩
      intro b hb
      rcases List.mem_cons.mp hb with rfl | hb
      · omega
      · have := hz b hb
        omega

/-- `sortDesc` sorts newest first. -/
theorem pairwise_sortDesc (l : List Comment) :
    (sortDesc l).Pairwise (fun a b => b.created_at ≤ a.created_at) := by
  induction l with
  | nil => simp [sortDesc]
  | cons x xs ih => exact pairwise_insertDesc x _ ih

/-- Descending insertion adds exactly one element. -/
theorem length_insertDesc (x : Comment) (l : List Comment) :
    (insertDesc x l).length = l.length + 1 := by
  induction l with
  | nil => rfl
  | cons z zs ih =>
    unfold insertDesc
    by_cases h : x.created_at ≤ z.created_at
    · rw [if_pos h]
      simp [ih]
    · rw [if_neg h]
      simp

/-- `sortDesc` preserves length. -/
theorem length_sortDesc (l : List Comment) :
    (sortDesc l).length = l.length := by
  induction l with
  | nil => rfl
  | cons x xs ih =>
    unfold sortDesc
    rw [length_insertDesc, ih]
    rfl

/-- The fold inside `minByCreatedAt`, seeded with `some a`, lands on an
element no newer than the seed and than every list element. -/
theorem minByCreatedAt_go (l : List Comment) (a : Comment) :
    ∃ m, l.foldl (fun acc x =>
        match acc with
        | none => some x
        | some m0 => if x.created_at < m0.created_at then some x else some m0)
        (some a) = some m ∧
      (m = a ∨ m ∈ l) ∧ m.created_at ≤ a.created_at ∧
      ∀ x ∈ l, m.created_at ≤ x.created_at := by
  induction l generalizing a with
  | nil => exact ⟨a, rfl, Or.inl rfl, le_refl _, by simp⟩
  | cons x xs ih =>
    by_cases h : x.created_at < a.created_at
    · obtain ⟨m, hm, hmem, hle, hall⟩ := ih x
      refine ⟨m, ?_, ?_, ?_, ?_⟩
      · rw [List.foldl_cons]
        dsimp only
        rw [if_pos h]
        exact hm
      · rcases hmem with rfl | hmem
        · exact Or.inr (List.mem_cons_self _ _)
        · exact Or.inr (List.mem_cons_of_mem _ hmem)
      · omega
      · intro y hy
        rcases List.mem_cons.mp hy with rfl | hy
        · exact hle
        · exact hall y hy
    · obtain ⟨m, hm, hmem, hle, hall⟩ := ih a
      refine ⟨m, ?_, ?_, hle, ?_⟩
      · rw [List.foldl_cons]
        dsimp only
        rw [if_neg h]
        exact hm
      · rcases hmem with rfl | hmem
        · exact Or.inl rfl
        · exact Or.inr (List.mem_cons_of_mem _ hmem)
      · intro y hy
        rcases List.mem_cons.mp hy with rfl | hy
        · omega
        · exact hall y hy

/-- `min(replies, key=created_at)` returns a member that is oldest. -/
theorem minByCreatedAt_spec (l : List Comment) (m : Comment)
    (h : minByCreatedAt l = some m) :
    m ∈ l ∧ ∀ x ∈ l, m.created_at ≤ x.created_at := by
  cases l with
  | nil => cases h
  | cons x xs =>
    obtain ⟨m2, hm2, hmem, hle, hall⟩ := minByCreatedAt_go xs x
    have heq : minByCreatedAt (x :: xs) = some m2 := by
      unfold minByCreatedAt
      rw [List.foldl_cons]
      exact hm2
    rw [heq] at h
    cases h
    refine ⟨?_, ?_⟩
    · rcases hmem with rfl | hmem
      · exact List.mem_cons_self _ _
      · exact List.mem_cons_of_mem _ hmem
    · intro y hy
      rcases List.mem_cons.mp hy with rfl | hy
      · exact hle
      · exact hall y hy

/-- `minByCreatedAt` yields a value exactly on nonempty lists. -/
theorem minByCreatedAt_isSome (l : List Comment) (h : l ≠ []) :
    ∃ m, minByCreatedAt l = some m := by
  cases l with
  | nil => exact absurd rfl h
  | cons x xs =>
    obtain ⟨m2, hm2, _, _, _⟩ := minByCreatedAt_go xs x
    refine ⟨m2, ?_⟩
    unfold minByCreatedAt
    rw [List.foldl_cons]
    exact hm2

/-- C6: `listForMark` returns only non-deleted root comments (`parent_id`
null) of the mark, newest first, each carrying at most one attached reply —
and when the root has any non-deleted reply, exactly one is attached, an
oldest non-deleted reply of that root (trimmed in memory after the batch
load) — while `listReplies` returns the non-deleted replies of the parent,
newest first, with `total` the full count of its non-deleted replies across
all pages independent of the preview, and page 1 with a sufficient limit
contains every non-deleted reply. -/
theorem listings_preview_and_full_replies (s : Store) (mark_id comment_id : Nat)
    (params : PaginationParams) :
    (∀ e ∈ (get_comments s mark_id params).items,
       e.comment ∈ s.comments ∧ e.comment.mark_id = mark_id ∧
       e.comment.is_deleted = false ∧ e.comment.parent_id = none ∧
       e.replies.length ≤ 1 ∧
       (∀ m ∈ e.replies, m ∈ loadedReplies s e.comment.id ∧
          ∀ x ∈ loadedReplies s e.comment.id, m.created_at ≤ x.created_at) ∧
       (loadedReplies s e.comment.id ≠ [] → e.replies.length = 1)) ∧
    ((get_comments s mark_id params).items.map
        (fun e => e.comment)).Pairwise (fun a b => b.created_at ≤ a.created_at) ∧
    (∀ r ∈ (get_replies s comment_id params).items,
       r ∈ s.comments ∧ r.parent_id = some comment_id ∧ r.is_deleted = false) ∧
    ((get_replies s comment_id params).items).Pairwise
      (fun a b => b.created_at ≤ a.created_at) ∧
    ((get_replies s comment_id params).total =
      (s.comments.filter (fun c =>
        c.parent_id = some comment_id && c.is_deleted = false)).length) ∧
    (params.offset = 0 →
      (get_replies s comment_id params).total ≤ params.limit →
      ∀ r ∈ s.comments, r.parent_id = some comment_id → r.is_deleted = false →
        r ∈ (get_replies s comment_id params).items) := by
  have hslice : ∀ l : List Comment,
      ((l.drop params.offset).take params.limit).Sublist l :=
    fun l => (List.take_sublist _ _).trans (List.drop_sublist _ _)
  have htotal : (get_replies s comment_id params).total =
      (s.comments.filter (fun c =>
        c.parent_id = some comment_id && c.is_deleted = false)).length := by
    show (BaseSqlModel.count (commentTable s)
      [("parent_id", FilterValue.raw (Value.int comment_id)),
       ("is_deleted", FilterValue.raw (Value.bool false))]
      none false).toOption.getD 0 = _
    rw [count_parent_comments]
    rfl
  refine ⟨?_, ?_, ?_, ?_, htotal, ?_⟩
  · intro e he
    simp only [get_comments] at he
    obtain ⟨c, hc, rfl⟩ := List.mem_map.mp he
    have hcs : c ∈ sortDesc (s.comments.filter (fun c =>
        c.mark_id = mark_id && c.is_deleted = false && c.parent_id = none)) :=
      (hslice _).mem hc
    have hcf := (mem_sortDesc c _).mp hcs
    have hcm := List.mem_filter.mp hcf
    have hprops := hcm.2
    simp only [Bool.and_eq_true, decide_eq_true_eq] at hprops
    refine ⟨hcm.1, hprops.1.1, hprops.1.2, hprops.2, ?_, ?_, ?_⟩
    · cases hmin : minByCreatedAt (loadedReplies s c.id) <;> simp [hmin]
    · intro m hm
      cases hmin : minByCreatedAt (loadedReplies s c.id) with
      | none => simp [hmin] at hm
      | some m2 =>
        simp only [hmin, List.mem_singleton] at hm
        subst hm
        exact minByCreatedAt_spec _ _ hmin
    · intro hne
      obtain ⟨m2, hm2⟩ := minByCreatedAt_isSome _ hne
      simp [hm2]
  · have hmapmap : (get_comments s mark_id params).items.map (fun e => e.comment) =
        ((sortDesc (s.comments.filter (fun c =>
          c.mark_id = mark_id && c.is_deleted = false && c.parent_id = none))).drop
          params.offset).take params.limit := by
      simp only [get_comments]
      rw [List.map_map]
      exact List.map_id _
    rw [hmapmap]
    exact List.Pairwise.sublist (hslice _) (pairwise_sortDesc _)
  · intro r hr
    simp only [get_replies] at hr
    have hrs := (mem_sortDesc r _).mp ((hslice _).mem hr)
    have hrm := List.mem_filter.mp hrs
    have hprops := hrm.2
    simp only [Bool.and_eq_true, decide_eq_true_eq] at hprops
    exact ⟨hrm.1, hprops.1, hprops.2⟩
  · show (((sortDesc _).drop params.offset).take params.limit).Pairwise _
    exact List.Pairwise.sublist (hslice _) (pairwise_sortDesc _)
  · intro h0 hlim r hrm hrp hrd
    rw [htotal] at hlim
    show r ∈ ((sortDesc (s.comments.filter (fun c =>
      c.parent_id = some comment_id && c.is_deleted = false))).drop
      params.offset).take params.limit
    rw [h0, List.drop_zero]
    rw [List.take_of_length_le (by rw [length_sortDesc]; exact hlim)]
    exact (mem_sortDesc r _).mpr
      (List.mem_filter.mpr ⟨hrm, by simp [hrp, hrd]⟩)

end RealTimeMap
